import Mathlib

/-!
# Verification of the code-review session service

A shallow embedding of the session-store Durable Object
(`src/review-session.ts`), the prompt formatters (`src/prompts.ts`) and
the worker router (`src/index.ts`) of the AI code-review bot, with
theorems settling the specification's claims about them.

Modelling conventions:

* `Date.now()` is an explicit `now : Nat` argument supplied per
  operation (all clock reads inside one operation return the same
  value, which is the granularity every claim needs).
* `crypto.randomUUID()` is an explicit fresh-string argument.
* The Durable Object's persisted storage (`ctx.storage`, a single
  record under the key `state`) is an `Option SessionState` together
  with two flags saying whether the next load, respectively save,
  succeeds; a failing load/save rejects, which the embedding renders
  as `Except StorageErr`.  Each operation returns the post-operation
  object state alongside its `Except` outcome, because in the source a
  rejected promise leaves the already-performed in-memory mutations in
  place.
* The external inference service (`env.AI.run`) is an opaque function
  from the user prompt to `Except Unit String` (generated text or
  failure).
* JavaScript truthiness on the validated string fields (`!code`,
  `!language`, `!sessionId`) treats both `undefined` and the empty
  string as falsy; `Option String` with `jsFalsy` reproduces this.
-/

/-- One completed review (`ReviewEntry` in `src/review-session.ts`). -/
structure ReviewEntry where
  id : String
  timestamp : Nat
  code : String
  language : String
  review : String
  context : Option String
deriving Repr, DecidableEq

/-- The persisted unit per session key (`SessionState`). -/
structure SessionState where
  reviews : List ReviewEntry
  createdAt : Nat
  lastAccessedAt : Nat
deriving Repr, DecidableEq

/-- Why a storage call rejected. -/
inductive StorageErr where
  | getFailed
  | putFailed
deriving Repr, DecidableEq

/-- The Durable Object's `ctx.storage`, restricted to the single
`state` record the store uses, plus fault flags for the next load and
the next save (the platform API is fallible; the repository's design
treats load/save failure as fatal to the operation). -/
structure Storage where
  contents : Option SessionState
  getOk : Bool
  putOk : Bool
deriving Repr, DecidableEq

/-- `ctx.storage.get('state')`. -/
def Storage.getState (st : Storage) : Except StorageErr (Option SessionState) :=
  if st.getOk then .ok st.contents else .error .getFailed

/-- `ctx.storage.put('state', v)`; on success the record is replaced
whole (no partial update), on failure it is untouched. -/
def Storage.putState (st : Storage) (v : SessionState) : Except StorageErr Storage :=
  if st.putOk then .ok { st with contents := some v } else .error .putFailed

/-- A `ReviewSession` Durable Object instance: its in-memory
`this.state` and its persisted storage. -/
structure ReviewSession where
  state : SessionState
  storage : Storage
deriving Repr, DecidableEq

/-- The constructor: in-memory defaults (empty list, both timestamps
`Date.now()`), storage untouched. -/
def ReviewSession.construct (now : Nat) (storage : Storage) : ReviewSession :=
  { state := { reviews := [], createdAt := now, lastAccessedAt := now }, storage := storage }

/-- `initialize()`: load persisted state if present, refreshing
`lastAccessedAt` on a successful load; otherwise keep the in-memory
defaults.  Does not persist. -/
def ReviewSession.initState (now : Nat) (s : ReviewSession) :
    ReviewSession × Except StorageErr Unit :=
  match s.storage.getState with
  | .error e => (s, .error e)
  | .ok none => (s, .ok ())
  | .ok (some st) => ({ s with state := { st with lastAccessedAt := now } }, .ok ())

/-- `addReview(code, language, review, context?)`: lazy-load, build the
entry from the fresh id and the clock, push it, refresh
`lastAccessedAt`, persist the whole state, return the entry.  On a
failed save the in-memory push has already happened but the persisted
record is unchanged and the error propagates. -/
def ReviewSession.addReview (code language review : String) (context : Option String)
    (freshId : String) (now : Nat) (s : ReviewSession) :
    ReviewSession × Except StorageErr ReviewEntry :=
  match s.initState now with
  | (s₁, .error e) => (s₁, .error e)
  | (s₁, .ok ()) =>
    let entry : ReviewEntry :=
      { id := freshId, timestamp := now, code := code, language := language,
        review := review, context := context }
    let st : SessionState :=
      { reviews := s₁.state.reviews ++ [entry], createdAt := s₁.state.createdAt,
        lastAccessedAt := now }
    let s₂ : ReviewSession := { s₁ with state := st }
    match s₂.storage.putState st with
    | .error e => (s₂, .error e)
    | .ok stor => ({ s₂ with storage := stor }, .ok entry)

/-- `getReviews()`: lazy-load, refresh `lastAccessedAt`, re-persist
(the read causes a write), return the full ordered history. -/
def ReviewSession.getReviews (now : Nat) (s : ReviewSession) :
    ReviewSession × Except StorageErr (List ReviewEntry) :=
  match s.initState now with
  | (s₁, .error e) => (s₁, .error e)
  | (s₁, .ok ()) =>
    let st : SessionState := { s₁.state with lastAccessedAt := now }
    let s₂ : ReviewSession := { s₁ with state := st }
    match s₂.storage.putState st with
    | .error e => (s₂, .error e)
    | .ok stor => ({ s₂ with storage := stor }, .ok st.reviews)

/-- `getReview(id)`: lazy-load, then linear scan
(`reviews.find(r => r.id === id)`), `null` when absent. -/
def ReviewSession.getReview (id : String) (now : Nat) (s : ReviewSession) :
    ReviewSession × Except StorageErr (Option ReviewEntry) :=
  match s.initState now with
  | (s₁, .error e) => (s₁, .error e)
  | (s₁, .ok ()) => (s₁, .ok (s₁.state.reviews.find? (fun r => r.id == id)))

/-- `getLatestReview()`: lazy-load, then the last element of `reviews`
(`reviews[reviews.length - 1]`) or `null` when the list is empty. -/
def ReviewSession.getLatestReview (now : Nat) (s : ReviewSession) :
    ReviewSession × Except StorageErr (Option ReviewEntry) :=
  match s.initState now with
  | (s₁, .error e) => (s₁, .error e)
  | (s₁, .ok ()) =>
    if s₁.state.reviews.length = 0 then (s₁, .ok none)
    else (s₁, .ok (s₁.state.reviews.getLast?))

/-- The record `getMetadata()` returns. -/
structure SessionMetadata where
  reviewCount : Nat
  createdAt : Nat
  lastAccessedAt : Nat
deriving Repr, DecidableEq

/-- `getMetadata()`: lazy-load, then a read-only summary. -/
def ReviewSession.getMetadata (now : Nat) (s : ReviewSession) :
    ReviewSession × Except StorageErr SessionMetadata :=
  match s.initState now with
  | (s₁, .error e) => (s₁, .error e)
  | (s₁, .ok ()) =>
    (s₁, .ok { reviewCount := s₁.state.reviews.length, createdAt := s₁.state.createdAt,
               lastAccessedAt := s₁.state.lastAccessedAt })

/-- `clearReviews()`: reset `reviews` to empty, refresh
`lastAccessedAt`, persist.  Note: unlike every other operation it does
NOT lazy-load persisted state first. -/
def ReviewSession.clearReviews (now : Nat) (s : ReviewSession) :
    ReviewSession × Except StorageErr Unit :=
  let st : SessionState :=
    { reviews := [], createdAt := s.state.createdAt, lastAccessedAt := now }
  let s₁ : ReviewSession := { s with state := st }
  match s₁.storage.putState st with
  | .error e => (s₁, .error e)
  | .ok stor => ({ s₁ with storage := stor }, .ok ())

/-- The review list a successful `getReviews` reports: the persisted
list when a record exists, the in-memory one otherwise. -/
def ReviewSession.effReviews (s : ReviewSession) : List ReviewEntry :=
  match s.storage.contents with
  | some st => st.reviews
  | none => s.state.reviews

/-! ## Prompt formatters (`src/prompts.ts`) -/

/-- `createCodeReviewPrompt(code, language, context?)`: the initial
review prompt — code fenced by the language tag, the optional context
line, a closing instruction. -/
def createCodeReviewPrompt (code language : String) (context : Option String) : String :=
  let prompt := "Please review the following " ++ language ++ " code:\n\n```" ++
    language ++ "\n" ++ code ++ "\n```\n"
  let prompt := match context with
    | some ctx => prompt ++ "\nAdditional context: " ++ ctx ++ "\n"
    | none => prompt
  prompt ++ "\nProvide a comprehensive code review following the format specified in your system prompt."

/-- `createFollowUpPrompt(previousReview, newCode, language)`: prior
review text verbatim, then the new code fenced, then a closing
instruction asking for the comparison. -/
def createFollowUpPrompt (previousReview newCode language : String) : String :=
  "Based on your previous review:\n\n" ++ previousReview ++
    "\n\nThe code has been updated to:\n\n```" ++ language ++ "\n" ++ newCode ++
    "\n```\n\nPlease review the changes and confirm if the previous issues were addressed or if new issues have been introduced."

/-! ## Worker router (`src/index.ts`) -/

/-- The parsed body of a `POST /api/review` request.  A field absent
from the JSON is `none`. -/
structure ReviewRequest where
  code : Option String
  language : Option String
  context : Option String
  sessionId : Option String
deriving Repr, DecidableEq

/-- JavaScript falsiness of a possibly-absent string (`!x`): absent or
empty. -/
def jsFalsy : Option String → Bool
  | none => true
  | some s => s.isEmpty

/-- What a handler sends back, restricted to what the claims observe:
a 400 validation error, the generic 500 produced by the worker's
top-level catch, or the success payload of `handleReviewRequest`. -/
inductive ApiResponse where
  | validationError (msg : String)
  | serverError
  | ok (sessionId review reviewId : String) (isFollowUp : Bool) (timestamp : Nat)
deriving Repr, DecidableEq

/-- `handleReviewRequest`:  validate `code`/`language` (JS truthiness),
resolve the session, fetch its review list to decide initial versus
follow-up, build the prompt, call the inference service `ai`, append
the result, answer with the stored entry's id and the `isFollowUp`
flag.  `generatedKey` models the `crypto.randomUUID()` used when the
caller sent no session id, `freshId` the one used by `addReview`, and
`fallbackId` the one in `storedEntry.id || crypto.randomUUID()`.  Any
rejection (storage or inference) reaches the worker's top-level catch
and becomes the generic 500. -/
def handleReviewRequest (ai : String → Except Unit String) (req : ReviewRequest)
    (generatedKey freshId fallbackId : String) (now : Nat) (s : ReviewSession) :
    ReviewSession × ApiResponse :=
  if jsFalsy req.code || jsFalsy req.language then
    (s, .validationError "Missing required fields: code and language")
  else
    let code := req.code.getD ""
    let language := req.language.getD ""
    let sessionKey := if jsFalsy req.sessionId then generatedKey else req.sessionId.getD ""
    match s.getReviews now with
    | (s₁, .error _) => (s₁, .serverError)
    | (s₁, .ok reviews) =>
      let isFollowUp := decide (reviews.length > 0)
      -- `reviews[reviews.length - 1]` on the non-empty branch is the last
      -- element; `getLast?` is `some` exactly when `length > 0`.
      let userPrompt := match reviews.getLast? with
        | some latest => createFollowUpPrompt latest.review code language
        | none => createCodeReviewPrompt code language req.context
      match ai userPrompt with
      | .error _ => (s₁, .serverError)
      | .ok review =>
        match s₁.addReview code language review req.context freshId now with
        | (s₂, .error _) => (s₂, .serverError)
        | (s₂, .ok entry) =>
          let reviewId := if entry.id.isEmpty then fallbackId else entry.id
          (s₂, .ok sessionKey review reviewId isFollowUp now)

/-- What `handleGetReviews` sends back. -/
inductive ListResponse where
  | validationError (msg : String)
  | serverError
  | ok (reviews : List ReviewEntry)
deriving Repr, DecidableEq

/-- `handleGetReviews`: validate the `sessionId` query parameter
(`null` or empty is falsy), then forward the session's `getReviews`
result. -/
def handleGetReviews (sessionId : Option String) (now : Nat) (s : ReviewSession) :
    ReviewSession × ListResponse :=
  if jsFalsy sessionId then
    (s, .validationError "Missing sessionId parameter")
  else
    match s.getReviews now with
    | (s₁, .error _) => (s₁, .serverError)
    | (s₁, .ok reviews) => (s₁, .ok reviews)

/-- What `handleClearSession` sends back. -/
inductive ClearResponse where
  | validationError (msg : String)
  | serverError
  | success
deriving Repr, DecidableEq

/-- `handleClearSession`: validate the `sessionId` body field, then
forward the session's `clearReviews` acknowledgement. -/
def handleClearSession (sessionId : Option String) (now : Nat) (s : ReviewSession) :
    ReviewSession × ClearResponse :=
  if jsFalsy sessionId then
    (s, .validationError "Missing sessionId")
  else
    match s.clearReviews now with
    | (s₁, .error _) => (s₁, .serverError)
    | (s₁, .ok ()) => (s₁, .success)

/-! ## Characterization lemmas for the store operations -/

/-- The in-memory state right after a successful lazy-load at `now`. -/
def ReviewSession.effState (now : Nat) (s : ReviewSession) : SessionState :=
  match s.storage.contents with
  | some st => { st with lastAccessedAt := now }
  | none => s.state

theorem ReviewSession.effState_reviews (s : ReviewSession) (now : Nat) :
    (s.effState now).reviews = s.effReviews := by
  unfold ReviewSession.effState ReviewSession.effReviews
  cases s.storage.contents <;> rfl

theorem ReviewSession.initState_ok (s : ReviewSession) (now : Nat)
    (hget : s.storage.getOk = true) :
    s.initState now = ({ s with state := s.effState now }, .ok ()) := by
  unfold ReviewSession.initState Storage.getState ReviewSession.effState
  cases h : s.storage.contents <;> simp [hget, h]

/-- Closed form of a successful `addReview`. -/
theorem ReviewSession.addReview_eq (s : ReviewSession) (c l r : String)
    (ctx : Option String) (fid : String) (now : Nat)
    (hget : s.storage.getOk = true) (hput : s.storage.putOk = true) :
    s.addReview c l r ctx fid now =
      ({ state := { reviews := s.effReviews ++ [⟨fid, now, c, l, r, ctx⟩],
                    createdAt := (s.effState now).createdAt,
                    lastAccessedAt := now },
         storage := { contents :=
                        some { reviews := s.effReviews ++ [⟨fid, now, c, l, r, ctx⟩],
                               createdAt := (s.effState now).createdAt,
                               lastAccessedAt := now },
                      getOk := true, putOk := true } },
       .ok ⟨fid, now, c, l, r, ctx⟩) := by
  unfold ReviewSession.addReview
  rw [s.initState_ok now hget]
  simp only [Storage.putState, hput, if_true, ← ReviewSession.effState_reviews s now]
  simp [hget, hput]

/-- Closed form of a successful `getReviews`. -/
theorem ReviewSession.getReviews_eq (s : ReviewSession) (now : Nat)
    (hget : s.storage.getOk = true) (hput : s.storage.putOk = true) :
    s.getReviews now =
      ({ state := { reviews := s.effReviews,
                    createdAt := (s.effState now).createdAt,
                    lastAccessedAt := now },
         storage := { contents :=
                        some { reviews := s.effReviews,
                               createdAt := (s.effState now).createdAt,
                               lastAccessedAt := now },
                      getOk := true, putOk := true } },
       .ok s.effReviews) := by
  unfold ReviewSession.getReviews
  rw [s.initState_ok now hget]
  simp only [Storage.putState, hput, if_true, ← ReviewSession.effState_reviews s now]
  simp [hget, hput]

/-- An instance whose storage works and whose persisted record, when
one exists, agrees with the in-memory state.  Holds for a fresh
session and is preserved by the mutating operations. -/
def ReviewSession.Coherent (s : ReviewSession) : Prop :=
  s.storage.getOk = true ∧ s.storage.putOk = true ∧
    (s.storage.contents = none ∨ s.storage.contents = some s.state)

theorem ReviewSession.Coherent.effReviews_eq {s : ReviewSession} (h : s.Coherent) :
    s.effReviews = s.state.reviews := by
  unfold ReviewSession.effReviews
  rcases h.2.2 with h' | h' <;> simp [h']

/-! ## C1: `clearReviews` on a fresh instance -/

/-- **C1** (code bug).  The claim says `clearReviews` never resets the
persisted `createdAt`, including when it is the first operation on a
freshly instantiated object over previously persisted state.  The code
skips the lazy-load in `clearReviews`, so on an instance constructed
at time 5 over a stored record created at time 3, clearing at time 7
persists `createdAt = 5`: the creation time IS reset. -/
theorem c1_clearReviews_resets_persisted_createdAt_on_fresh_instance :
    ((ReviewSession.clearReviews 7
        (ReviewSession.construct 5 ⟨some ⟨[], 3, 3⟩, true, true⟩)).1.storage.contents
      = some ⟨[], 5, 7⟩) ∧ (5 : Nat) ≠ 3 := ⟨rfl, by decide⟩

/-! ## C2: `addReview` is a pure append -/

/-- The caller-supplied and environment-supplied arguments of one
`addReview` call. -/
structure AddInput where
  code : String
  language : String
  review : String
  context : Option String
  freshId : String
  now : Nat
deriving Repr, DecidableEq

/-- The entry `addReview` constructs from one input. -/
def mkEntry (i : AddInput) : ReviewEntry :=
  { id := i.freshId, timestamp := i.now, code := i.code, language := i.language,
    review := i.review, context := i.context }

/-- Run a sequence of `addReview` calls, threading the session. -/
def runAdds (s : ReviewSession) : List AddInput → ReviewSession
  | [] => s
  | i :: rest =>
      runAdds (ReviewSession.addReview i.code i.language i.review i.context
        i.freshId i.now s).1 rest

theorem runAdds_reviews (inputs : List AddInput) :
    ∀ s : ReviewSession, s.Coherent →
      (runAdds s inputs).state.reviews = s.state.reviews ++ inputs.map mkEntry
        ∧ (runAdds s inputs).Coherent := by
  induction inputs with
  | nil => intro s hs; exact ⟨by simp [runAdds], by simpa [runAdds] using hs⟩
  | cons i rest ih =>
    intro s hs
    have hstep := ReviewSession.addReview_eq s i.code i.language i.review i.context
      i.freshId i.now hs.1 hs.2.1
    have hrw : (ReviewSession.addReview i.code i.language i.review i.context
        i.freshId i.now s).1.state.reviews = s.state.reviews ++ [mkEntry i] := by
      rw [hstep, hs.effReviews_eq]; rfl
    have hcoh : (ReviewSession.addReview i.code i.language i.review i.context
        i.freshId i.now s).1.Coherent := by
      rw [hstep]; exact ⟨rfl, rfl, Or.inr rfl⟩
    obtain ⟨h1, h2⟩ := ih _ hcoh
    refine ⟨?_, h2⟩
    simp only [runAdds] at h1 ⊢
    rw [h1, hrw, List.map_cons, List.append_assoc]
    rfl

/-- A freshly materialized session: constructor defaults, empty
working storage. -/
def freshSession (t : Nat) : ReviewSession :=
  ReviewSession.construct t ⟨none, true, true⟩

theorem freshSession_coherent (t : Nat) : (freshSession t).Coherent :=
  ⟨rfl, rfl, Or.inl rfl⟩

/-- **C2**.  Starting from a fresh session, after `N - 1` calls the
list holds exactly the entries built from those calls in order, and
the `N`-th call appends the entry built from its input at the end —
so the list has length `N`, the new entry is last, and every earlier
entry is unchanged at its original position. -/
theorem c2_addReview_appends_preserving_prior_entries (t : Nat)
    (prev : List AddInput) (i : AddInput) :
    (runAdds (freshSession t) prev).state.reviews = prev.map mkEntry
      ∧ (runAdds (freshSession t) (prev ++ [i])).state.reviews
          = prev.map mkEntry ++ [mkEntry i] := by
  obtain ⟨h1, _⟩ := runAdds_reviews prev (freshSession t) (freshSession_coherent t)
  obtain ⟨h2, _⟩ := runAdds_reviews (prev ++ [i]) (freshSession t) (freshSession_coherent t)
  refine ⟨by simpa [freshSession, ReviewSession.construct] using h1, ?_⟩
  simpa [freshSession, ReviewSession.construct] using h2

/-! ## Further characterization lemmas -/

/-- Closed form of a successful `clearReviews`. -/
theorem ReviewSession.clearReviews_eq (s : ReviewSession) (now : Nat)
    (hput : s.storage.putOk = true) :
    s.clearReviews now =
      ({ state := ⟨[], s.state.createdAt, now⟩,
         storage := ⟨some ⟨[], s.state.createdAt, now⟩, s.storage.getOk, true⟩ },
       .ok ()) := by
  unfold ReviewSession.clearReviews Storage.putState
  simp [hput]

/-- Closed form of a successful `getReview`. -/
theorem ReviewSession.getReview_eq (s : ReviewSession) (id : String) (now : Nat)
    (hget : s.storage.getOk = true) :
    s.getReview id now =
      ({ s with state := s.effState now },
       .ok (s.effReviews.find? (fun r => r.id == id))) := by
  unfold ReviewSession.getReview
  rw [s.initState_ok now hget]
  simp [← ReviewSession.effState_reviews s now]

/-- Closed form of a successful `getLatestReview`: the `length = 0`
test followed by indexing at `length - 1` is exactly `getLast?`. -/
theorem ReviewSession.getLatestReview_eq (s : ReviewSession) (now : Nat)
    (hget : s.storage.getOk = true) :
    s.getLatestReview now =
      ({ s with state := s.effState now }, .ok s.effReviews.getLast?) := by
  unfold ReviewSession.getLatestReview
  rw [s.initState_ok now hget]
  rw [← ReviewSession.effState_reviews s now]
  rcases hrev : (s.effState now).reviews with _ | ⟨a, as⟩ <;> simp [hrev]

/-- Closed form of a successful `getMetadata`. -/
theorem ReviewSession.getMetadata_eq (s : ReviewSession) (now : Nat)
    (hget : s.storage.getOk = true) :
    s.getMetadata now =
      ({ s with state := s.effState now },
       .ok ⟨(s.effState now).reviews.length, (s.effState now).createdAt,
            (s.effState now).lastAccessedAt⟩) := by
  unfold ReviewSession.getMetadata
  rw [s.initState_ok now hget]

theorem ReviewSession.effState_lastAccessedAt (s : ReviewSession) (now : Nat) :
    (s.effState now).lastAccessedAt =
      if s.storage.contents = none then s.state.lastAccessedAt else now := by
  unfold ReviewSession.effState
  cases s.storage.contents <;> simp

/-! ## C8: clear-then-list yields empty -/

/-- **C8**.  A successful `clearReviews` empties both the in-memory
and the persisted review list, so a following `getReviews` reports the
empty sequence whatever the prior length; on an already-empty session
the list is empty before and after, a no-op in effect. -/
theorem c8_clear_then_getReviews_empty (s : ReviewSession) (now₁ now₂ : Nat)
    (hget : s.storage.getOk = true) (hput : s.storage.putOk = true) :
    (s.clearReviews now₁).1.state.reviews = []
      ∧ (s.clearReviews now₁).1.effReviews = []
      ∧ ((s.clearReviews now₁).1.getReviews now₂).2 = .ok [] := by
  rw [s.clearReviews_eq now₁ hput]
  refine ⟨rfl, rfl, ?_⟩
  rw [ReviewSession.getReviews_eq
    ⟨⟨[], s.state.createdAt, now₁⟩,
     ⟨some ⟨[], s.state.createdAt, now₁⟩, s.storage.getOk, true⟩⟩ now₂ hget rfl]
  rfl

/-- Witness for C8 on a session holding two reviews. -/
theorem c8_clear_then_getReviews_empty_witness :
    ((⟨⟨[⟨"id-1", 1, "let x = 1", "javascript", "fine", none⟩], 0, 1⟩,
       ⟨some ⟨[⟨"id-1", 1, "let x = 1", "javascript", "fine", none⟩], 0, 1⟩,
        true, true⟩⟩ : ReviewSession).clearReviews 5).1.state.reviews = []
      ∧ ((⟨⟨[⟨"id-1", 1, "let x = 1", "javascript", "fine", none⟩], 0, 1⟩,
           ⟨some ⟨[⟨"id-1", 1, "let x = 1", "javascript", "fine", none⟩], 0, 1⟩,
            true, true⟩⟩ : ReviewSession).clearReviews 5).1.effReviews = []
      ∧ (((⟨⟨[⟨"id-1", 1, "let x = 1", "javascript", "fine", none⟩], 0, 1⟩,
            ⟨some ⟨[⟨"id-1", 1, "let x = 1", "javascript", "fine", none⟩], 0, 1⟩,
             true, true⟩⟩ : ReviewSession).clearReviews 5).1.getReviews 6).2 = .ok [] :=
  c8_clear_then_getReviews_empty _ 5 6 rfl rfl

/-! ## C9: lookup by id and latest entry -/

/-- **C9**.  `getReview(id)` answers `.ok` of an entry of the list
whose `id` matches when one exists, `.ok none` when none does — never
an error — and `getLatestReview` answers `.ok` of the last element of
the list (`none` on an empty list). -/
theorem c9_getReview_found_absent_and_latest (s : ReviewSession) (id : String)
    (now : Nat) (hget : s.storage.getOk = true) :
    ((∃ e ∈ s.effReviews, e.id = id) →
        ∃ e, (s.getReview id now).2 = .ok (some e) ∧ e.id = id ∧ e ∈ s.effReviews)
      ∧ ((∀ e ∈ s.effReviews, e.id ≠ id) → (s.getReview id now).2 = .ok none)
      ∧ (s.getLatestReview now).2 = .ok s.effReviews.getLast? := by
  rw [s.getReview_eq id now hget, s.getLatestReview_eq now hget]
  refine ⟨?_, ?_, rfl⟩
  · rintro ⟨e, he, heq⟩
    rcases hfind : s.effReviews.find? (fun r => r.id == id) with _ | e'
    · rw [List.find?_eq_none] at hfind
      exact absurd (by simpa using heq) (by simpa using hfind e he)
    · exact ⟨e', by simp [hfind], by simpa using List.find?_some hfind,
        List.mem_of_find?_eq_some hfind⟩
  · intro h
    rcases hfind : s.effReviews.find? (fun r => r.id == id) with _ | e'
    · simp [hfind]
    · exact absurd (by simpa using List.find?_some hfind)
        (h e' (List.mem_of_find?_eq_some hfind))

/-- Witness for C9: a two-entry session, looking up the first id. -/
theorem c9_getReview_found_absent_and_latest_witness :
    ((∃ e ∈ (⟨⟨[⟨"id-1", 1, "x", "javascript", "fine", none⟩], 0, 1⟩,
        ⟨some ⟨[⟨"id-1", 1, "x", "javascript", "fine", none⟩], 0, 1⟩, true,
         true⟩⟩ : ReviewSession).effReviews, e.id = "id-1") →
      ∃ e, ((⟨⟨[⟨"id-1", 1, "x", "javascript", "fine", none⟩], 0, 1⟩,
        ⟨some ⟨[⟨"id-1", 1, "x", "javascript", "fine", none⟩], 0, 1⟩, true,
         true⟩⟩ : ReviewSession).getReview "id-1" 9).2 = .ok (some e) ∧ e.id = "id-1"
          ∧ e ∈ (⟨⟨[⟨"id-1", 1, "x", "javascript", "fine", none⟩], 0, 1⟩,
              ⟨some ⟨[⟨"id-1", 1, "x", "javascript", "fine", none⟩], 0, 1⟩, true,
               true⟩⟩ : ReviewSession).effReviews)
    ∧ ((∀ e ∈ (⟨⟨[⟨"id-1", 1, "x", "javascript", "fine", none⟩], 0, 1⟩,
        ⟨some ⟨[⟨"id-1", 1, "x", "javascript", "fine", none⟩], 0, 1⟩, true,
         true⟩⟩ : ReviewSession).effReviews, e.id ≠ "id-1") →
      ((⟨⟨[⟨"id-1", 1, "x", "javascript", "fine", none⟩], 0, 1⟩,
        ⟨some ⟨[⟨"id-1", 1, "x", "javascript", "fine", none⟩], 0, 1⟩, true,
         true⟩⟩ : ReviewSession).getReview "id-1" 9).2 = .ok none)
    ∧ ((⟨⟨[⟨"id-1", 1, "x", "javascript", "fine", none⟩], 0, 1⟩,
        ⟨some ⟨[⟨"id-1", 1, "x", "javascript", "fine", none⟩], 0, 1⟩, true,
         true⟩⟩ : ReviewSession).getLatestReview 9).2
      = .ok (⟨⟨[⟨"id-1", 1, "x", "javascript", "fine", none⟩], 0, 1⟩,
          ⟨some ⟨[⟨"id-1", 1, "x", "javascript", "fine", none⟩], 0, 1⟩, true,
           true⟩⟩ : ReviewSession).effReviews.getLast? :=
  c9_getReview_found_absent_and_latest _ "id-1" 9 rfl

/-! ## C4: which operations refresh `lastAccessedAt` -/

/-- **C4** (counterexample).  On a session with no persisted record, a
read operation does NOT refresh `lastAccessedAt`: a `getReview` at
time 5 on an instance constructed at time 0 leaves it at 0. -/
theorem c4_getReview_does_not_refresh_lastAccessedAt :
    ((ReviewSession.getReview "x" 5
        (ReviewSession.construct 0 ⟨none, true, true⟩)).1.state.lastAccessedAt = 0)
      ∧ (0 : Nat) ≠ 5 := ⟨rfl, by decide⟩

/-- **C4** (amended).  `addReview`, `getReviews` and `clearReviews`
always set `lastAccessedAt` to the current time; `initialize`,
`getReview`, `getLatestReview` and `getMetadata` set the in-memory
`lastAccessedAt` to the current time exactly when a persisted record
exists (through the lazy load) and leave it unchanged when none does. -/
theorem c4_amended_lastAccessedAt_refresh (s : ReviewSession) (c l r : String)
    (ctx : Option String) (fid id : String) (now : Nat)
    (hget : s.storage.getOk = true) (hput : s.storage.putOk = true) :
    (s.addReview c l r ctx fid now).1.state.lastAccessedAt = now
      ∧ (s.getReviews now).1.state.lastAccessedAt = now
      ∧ (s.clearReviews now).1.state.lastAccessedAt = now
      ∧ (s.initState now).1.state.lastAccessedAt
          = (if s.storage.contents = none then s.state.lastAccessedAt else now)
      ∧ (s.getReview id now).1.state.lastAccessedAt
          = (if s.storage.contents = none then s.state.lastAccessedAt else now)
      ∧ (s.getLatestReview now).1.state.lastAccessedAt
          = (if s.storage.contents = none then s.state.lastAccessedAt else now)
      ∧ (s.getMetadata now).1.state.lastAccessedAt
          = (if s.storage.contents = none then s.state.lastAccessedAt else now) := by
  rw [s.addReview_eq c l r ctx fid now hget hput, s.getReviews_eq now hget hput,
    s.clearReviews_eq now hput, s.initState_ok now hget, s.getReview_eq id now hget,
    s.getLatestReview_eq now hget, s.getMetadata_eq now hget]
  exact ⟨rfl, rfl, rfl, s.effState_lastAccessedAt now, s.effState_lastAccessedAt now,
    s.effState_lastAccessedAt now, s.effState_lastAccessedAt now⟩

/-- Witness for the amended C4 on a session with a persisted record. -/
theorem c4_amended_lastAccessedAt_refresh_witness :
    ((⟨⟨[], 0, 1⟩, ⟨some ⟨[], 0, 1⟩, true, true⟩⟩ : ReviewSession).addReview
        "c" "js" "r" none "f" 7).1.state.lastAccessedAt = 7
      ∧ ((⟨⟨[], 0, 1⟩, ⟨some ⟨[], 0, 1⟩, true, true⟩⟩ : ReviewSession).getReviews
          7).1.state.lastAccessedAt = 7
      ∧ ((⟨⟨[], 0, 1⟩, ⟨some ⟨[], 0, 1⟩, true, true⟩⟩ : ReviewSession).clearReviews
          7).1.state.lastAccessedAt = 7
      ∧ ((⟨⟨[], 0, 1⟩, ⟨some ⟨[], 0, 1⟩, true, true⟩⟩ : ReviewSession).initState
          7).1.state.lastAccessedAt
        = (if (⟨⟨[], 0, 1⟩, ⟨some ⟨[], 0, 1⟩, true, true⟩⟩ :
            ReviewSession).storage.contents = none then
            (⟨⟨[], 0, 1⟩, ⟨some ⟨[], 0, 1⟩, true, true⟩⟩ :
              ReviewSession).state.lastAccessedAt else 7)
      ∧ ((⟨⟨[], 0, 1⟩, ⟨some ⟨[], 0, 1⟩, true, true⟩⟩ : ReviewSession).getReview
          "x" 7).1.state.lastAccessedAt
        = (if (⟨⟨[], 0, 1⟩, ⟨some ⟨[], 0, 1⟩, true, true⟩⟩ :
            ReviewSession).storage.contents = none then
            (⟨⟨[], 0, 1⟩, ⟨some ⟨[], 0, 1⟩, true, true⟩⟩ :
              ReviewSession).state.lastAccessedAt else 7)
      ∧ ((⟨⟨[], 0, 1⟩, ⟨some ⟨[], 0, 1⟩, true, true⟩⟩ :
            ReviewSession).getLatestReview 7).1.state.lastAccessedAt
        = (if (⟨⟨[], 0, 1⟩, ⟨some ⟨[], 0, 1⟩, true, true⟩⟩ :
            ReviewSession).storage.contents = none then
            (⟨⟨[], 0, 1⟩, ⟨some ⟨[], 0, 1⟩, true, true⟩⟩ :
              ReviewSession).state.lastAccessedAt else 7)
      ∧ ((⟨⟨[], 0, 1⟩, ⟨some ⟨[], 0, 1⟩, true, true⟩⟩ :
            ReviewSession).getMetadata 7).1.state.lastAccessedAt
        = (if (⟨⟨[], 0, 1⟩, ⟨some ⟨[], 0, 1⟩, true, true⟩⟩ :
            ReviewSession).storage.contents = none then
            (⟨⟨[], 0, 1⟩, ⟨some ⟨[], 0, 1⟩, true, true⟩⟩ :
              ReviewSession).state.lastAccessedAt else 7) :=
  c4_amended_lastAccessedAt_refresh _ "c" "js" "r" none "f" "x" 7 rfl rfl

/-! ## C6: when `addReview` fails -/

/-- **C6** (counterexample).  `addReview` can fail for a reason other
than a failing save: when the storage *load* inside the lazy
initialization rejects (the save would have succeeded), the operation
propagates the load error. -/
theorem c6_addReview_fails_on_load_failure :
    ((ReviewSession.addReview "c" "js" "r" none "f" 5
        ⟨⟨[], 0, 0⟩, ⟨some ⟨[], 0, 0⟩, false, true⟩⟩).2 = .error .getFailed)
      ∧ StorageErr.getFailed ≠ StorageErr.putFailed := ⟨rfl, by decide⟩

/-- **C6** (amended).  `addReview` succeeds and returns the entry iff
the storage load and save both succeed; on any failure the error is
propagated (no entry in the result) and the persisted record is left
exactly as it was — no partial commit. -/
theorem c6_amended_addReview_fails_iff_storage_fails (s : ReviewSession)
    (c l r : String) (ctx : Option String) (fid : String) (now : Nat) :
    ((∃ entry, (s.addReview c l r ctx fid now).2 = .ok entry)
        ↔ (s.storage.getOk = true ∧ s.storage.putOk = true))
      ∧ (∀ e, (s.addReview c l r ctx fid now).2 = .error e →
          (s.addReview c l r ctx fid now).1.storage.contents = s.storage.contents) := by
  unfold ReviewSession.addReview ReviewSession.initState Storage.getState Storage.putState
  rcases s with ⟨st, ⟨cts, g, p⟩⟩
  cases g <;> cases p <;> cases cts <;> simp

/-! ## C7 and C10: router validation -/

/-- **C7**.  A submit request missing `code` or `language`, a list
request with no `sessionId`, and a clear request with no `sessionId`
are all answered with the validation error immediately: no store
operation runs and the session is returned untouched. -/
theorem c7_missing_fields_rejected_without_store_access
    (ai : String → Except Unit String) (req : ReviewRequest)
    (gk fid fb : String) (now : Nat) (s : ReviewSession)
    (hreq : req.code = none ∨ req.language = none) :
    handleReviewRequest ai req gk fid fb now s
        = (s, .validationError "Missing required fields: code and language")
      ∧ handleGetReviews none now s
        = (s, .validationError "Missing sessionId parameter")
      ∧ handleClearSession none now s
        = (s, .validationError "Missing sessionId") := by
  refine ⟨?_, rfl, rfl⟩
  rcases hreq with h | h <;> unfold handleReviewRequest <;>
    simp [h, show jsFalsy none = true from rfl]

/-- Witness for C7: a request with a language but no code. -/
theorem c7_missing_fields_rejected_without_store_access_witness :
    handleReviewRequest (fun _ => .error ()) ⟨none, some "javascript", none, none⟩
        "k" "f" "g" 3 (ReviewSession.construct 0 ⟨none, true, true⟩)
      = (ReviewSession.construct 0 ⟨none, true, true⟩,
         .validationError "Missing required fields: code and language")
    ∧ handleGetReviews none 3 (ReviewSession.construct 0 ⟨none, true, true⟩)
      = (ReviewSession.construct 0 ⟨none, true, true⟩,
         .validationError "Missing sessionId parameter")
    ∧ handleClearSession none 3 (ReviewSession.construct 0 ⟨none, true, true⟩)
      = (ReviewSession.construct 0 ⟨none, true, true⟩,
         .validationError "Missing sessionId") :=
  c7_missing_fields_rejected_without_store_access (fun _ => .error ())
    ⟨none, some "javascript", none, none⟩ "k" "f" "g" 3
    (ReviewSession.construct 0 ⟨none, true, true⟩) (Or.inl rfl)

/-- **C10**.  A submit request whose `code` or `language` is present
but the empty string is rejected exactly like a missing field — JS
truthiness — with the session untouched. -/
theorem c10_empty_string_fields_rejected (ai : String → Except Unit String)
    (req : ReviewRequest) (gk fid fb : String) (now : Nat) (s : ReviewSession)
    (hreq : req.code = some "" ∨ req.language = some "") :
    handleReviewRequest ai req gk fid fb now s
      = (s, .validationError "Missing required fields: code and language") := by
  rcases hreq with h | h <;> unfold handleReviewRequest <;>
    simp [h, show jsFalsy (some "") = true from rfl]

/-- Witness for C10: an empty `language` with a present `code`. -/
theorem c10_empty_string_fields_rejected_witness :
    handleReviewRequest (fun _ => .error ()) ⟨some "let x = 1", some "", none, none⟩
        "k" "f" "g" 3 (ReviewSession.construct 0 ⟨none, true, true⟩)
      = (ReviewSession.construct 0 ⟨none, true, true⟩,
         .validationError "Missing required fields: code and language") :=
  c10_empty_string_fields_rejected _ _ "k" "f" "g" 3 _ (Or.inr rfl)

/-! ## C5: inference failure stores nothing -/

/-- **C5**.  When the inference service fails, the failure surfaces as
the generic error and nothing is appended: the session's review list
(in memory and persisted) after the failed request is exactly the list
the request observed. -/
theorem c5_ai_failure_appends_nothing (ai : String → Except Unit String)
    (req : ReviewRequest) (gk fid fb : String) (now : Nat) (s : ReviewSession)
    (hc : jsFalsy req.code = false) (hl : jsFalsy req.language = false)
    (hget : s.storage.getOk = true) (hput : s.storage.putOk = true)
    (hai : ∀ p, ai p = .error ()) :
    (handleReviewRequest ai req gk fid fb now s).2 = .serverError
      ∧ (handleReviewRequest ai req gk fid fb now s).1.state.reviews = s.effReviews
      ∧ (handleReviewRequest ai req gk fid fb now s).1.effReviews = s.effReviews := by
  unfold handleReviewRequest
  rw [s.getReviews_eq now hget hput]
  simp [hc, hl, hai]
  rfl

/-- Witness for C5 on a session holding one review. -/
theorem c5_ai_failure_appends_nothing_witness :
    (handleReviewRequest (fun _ => .error ())
        ⟨some "let y", some "javascript", none, some "sess"⟩ "k" "f" "g" 8
        ⟨⟨[⟨"id-1", 1, "x", "javascript", "fine", none⟩], 0, 1⟩,
         ⟨some ⟨[⟨"id-1", 1, "x", "javascript", "fine", none⟩], 0, 1⟩, true,
          true⟩⟩).2 = .serverError
      ∧ (handleReviewRequest (fun _ => .error ())
          ⟨some "let y", some "javascript", none, some "sess"⟩ "k" "f" "g" 8
          ⟨⟨[⟨"id-1", 1, "x", "javascript", "fine", none⟩], 0, 1⟩,
           ⟨some ⟨[⟨"id-1", 1, "x", "javascript", "fine", none⟩], 0, 1⟩, true,
            true⟩⟩).1.state.reviews
        = (⟨⟨[⟨"id-1", 1, "x", "javascript", "fine", none⟩], 0, 1⟩,
            ⟨some ⟨[⟨"id-1", 1, "x", "javascript", "fine", none⟩], 0, 1⟩, true,
             true⟩⟩ : ReviewSession).effReviews
      ∧ (handleReviewRequest (fun _ => .error ())
          ⟨some "let y", some "javascript", none, some "sess"⟩ "k" "f" "g" 8
          ⟨⟨[⟨"id-1", 1, "x", "javascript", "fine", none⟩], 0, 1⟩,
           ⟨some ⟨[⟨"id-1", 1, "x", "javascript", "fine", none⟩], 0, 1⟩, true,
            true⟩⟩).1.effReviews
        = (⟨⟨[⟨"id-1", 1, "x", "javascript", "fine", none⟩], 0, 1⟩,
            ⟨some ⟨[⟨"id-1", 1, "x", "javascript", "fine", none⟩], 0, 1⟩, true,
             true⟩⟩ : ReviewSession).effReviews :=
  c5_ai_failure_appends_nothing _ _ "k" "f" "g" 8 _ rfl rfl rfl rfl (fun _ => rfl)

/-! ## C3: follow-up detection and prompt choice -/

/-- Closed form of `handleReviewRequest` past validation with working
storage: the list fetch decides the prompt, the inference answer is
either propagated as the generic failure (leaving the list as fetched)
or appended and acknowledged with `isFollowUp = (length > 0)`. -/
theorem handleReviewRequest_eq (ai : String → Except Unit String)
    (req : ReviewRequest) (gk fid fb : String) (now : Nat) (s : ReviewSession)
    (hc : jsFalsy req.code = false) (hl : jsFalsy req.language = false)
    (hget : s.storage.getOk = true) (hput : s.storage.putOk = true) :
    handleReviewRequest ai req gk fid fb now s =
      (match ai (match s.effReviews.getLast? with
          | some latest =>
              createFollowUpPrompt latest.review (req.code.getD "") (req.language.getD "")
          | none =>
              createCodeReviewPrompt (req.code.getD "") (req.language.getD "") req.context) with
        | .error _ =>
            (⟨⟨s.effReviews, (s.effState now).createdAt, now⟩,
              ⟨some ⟨s.effReviews, (s.effState now).createdAt, now⟩, true, true⟩⟩,
             .serverError)
        | .ok rv =>
            (⟨⟨s.effReviews ++
                 [⟨fid, now, req.code.getD "", req.language.getD "", rv, req.context⟩],
               (s.effState now).createdAt, now⟩,
              ⟨some ⟨s.effReviews ++
                  [⟨fid, now, req.code.getD "", req.language.getD "", rv, req.context⟩],
                (s.effState now).createdAt, now⟩, true, true⟩⟩,
             .ok (if jsFalsy req.sessionId then gk else req.sessionId.getD "") rv
               (if fid.isEmpty then fb else fid)
               (decide (s.effReviews.length > 0)) now)) := by
  unfold handleReviewRequest
  rw [s.getReviews_eq now hget hput]
  simp only [hc, hl, Bool.or_self, Bool.false_eq_true, if_false]
  cases hai : ai (match s.effReviews.getLast? with
      | some latest =>
          createFollowUpPrompt latest.review (req.code.getD "") (req.language.getD "")
      | none =>
          createCodeReviewPrompt (req.code.getD "") (req.language.getD "") req.context) with
  | error e => rfl
  | ok rv =>
    dsimp only
    rw [ReviewSession.addReview_eq
      ⟨⟨s.effReviews, (s.effState now).createdAt, now⟩,
       ⟨some ⟨s.effReviews, (s.effState now).createdAt, now⟩, true, true⟩⟩
      (req.code.getD "") (req.language.getD "") rv req.context fid now rfl rfl]
    rfl

/-- **C3**.  Whenever the submit handler answers successfully, its
`isFollowUp` flag is true iff the session's review list was non-empty
when fetched; and on a non-empty list the handler consults the
inference service exactly at the follow-up prompt built from the most
recently appended entry's review text — its entire behavior depends on
the service's answer at that one prompt alone. -/
theorem c3_isFollowUp_iff_nonempty_and_prompt_from_latest
    (ai : String → Except Unit String) (req : ReviewRequest)
    (gk fid fb : String) (now : Nat) (s : ReviewSession)
    (hc : jsFalsy req.code = false) (hl : jsFalsy req.language = false)
    (hget : s.storage.getOk = true) (hput : s.storage.putOk = true) :
    (∀ s' k r i b t,
        handleReviewRequest ai req gk fid fb now s = (s', .ok k r i b t) →
          (b = true ↔ s.effReviews ≠ []))
      ∧ (∀ latest, s.effReviews.getLast? = some latest →
          ∀ ai₁ ai₂ : String → Except Unit String,
            ai₁ (createFollowUpPrompt latest.review (req.code.getD "")
                  (req.language.getD ""))
              = ai₂ (createFollowUpPrompt latest.review (req.code.getD "")
                  (req.language.getD "")) →
            handleReviewRequest ai₁ req gk fid fb now s
              = handleReviewRequest ai₂ req gk fid fb now s) := by
  constructor
  · intro s' k r i b t heq
    rw [handleReviewRequest_eq ai req gk fid fb now s hc hl hget hput] at heq
    cases hai : ai (match s.effReviews.getLast? with
        | some latest =>
            createFollowUpPrompt latest.review (req.code.getD "") (req.language.getD "")
        | none =>
            createCodeReviewPrompt (req.code.getD "") (req.language.getD "")
              req.context) with
    | error e => rw [hai] at heq; simp at heq
    | ok rv =>
      rw [hai] at heq
      simp only [Prod.mk.injEq, ApiResponse.ok.injEq] at heq
      obtain ⟨-, -, -, -, hb, -⟩ := heq
      rw [← hb]
      simp [List.length_pos]
  · intro latest hlast ai₁ ai₂ hagree
    rw [handleReviewRequest_eq ai₁ req gk fid fb now s hc hl hget hput,
      handleReviewRequest_eq ai₂ req gk fid fb now s hc hl hget hput, hlast, hagree]

/-- Witness for C3: a one-entry session, an echoing inference
service, a follow-up submission. -/
theorem c3_isFollowUp_iff_nonempty_and_prompt_from_latest_witness :
    (∀ s' k r i b t,
        handleReviewRequest (fun p => .ok p)
            ⟨some "new code", some "javascript", none, some "sess"⟩ "k" "f" "g" 8
            ⟨⟨[⟨"id-1", 1, "x", "javascript", "fine", none⟩], 0, 1⟩,
             ⟨some ⟨[⟨"id-1", 1, "x", "javascript", "fine", none⟩], 0, 1⟩, true, true⟩⟩
          = (s', .ok k r i b t) →
          (b = true ↔
            (⟨⟨[⟨"id-1", 1, "x", "javascript", "fine", none⟩], 0, 1⟩,
              ⟨some ⟨[⟨"id-1", 1, "x", "javascript", "fine", none⟩], 0, 1⟩, true,
               true⟩⟩ : ReviewSession).effReviews ≠ []))
      ∧ (∀ latest,
          (⟨⟨[⟨"id-1", 1, "x", "javascript", "fine", none⟩], 0, 1⟩,
            ⟨some ⟨[⟨"id-1", 1, "x", "javascript", "fine", none⟩], 0, 1⟩, true,
             true⟩⟩ : ReviewSession).effReviews.getLast? = some latest →
          ∀ ai₁ ai₂ : String → Except Unit String,
            ai₁ (createFollowUpPrompt latest.review "new code" "javascript")
              = ai₂ (createFollowUpPrompt latest.review "new code" "javascript") →
            handleReviewRequest ai₁
                ⟨some "new code", some "javascript", none, some "sess"⟩ "k" "f" "g" 8
                ⟨⟨[⟨"id-1", 1, "x", "javascript", "fine", none⟩], 0, 1⟩,
                 ⟨some ⟨[⟨"id-1", 1, "x", "javascript", "fine", none⟩], 0, 1⟩, true,
                  true⟩⟩
              = handleReviewRequest ai₂
                  ⟨some "new code", some "javascript", none, some "sess"⟩ "k" "f" "g" 8
                  ⟨⟨[⟨"id-1", 1, "x", "javascript", "fine", none⟩], 0, 1⟩,
                   ⟨some ⟨[⟨"id-1", 1, "x", "javascript", "fine", none⟩], 0, 1⟩, true,
                    true⟩⟩) :=
  c3_isFollowUp_iff_nonempty_and_prompt_from_latest _ _ "k" "f" "g" 8 _ rfl rfl rfl rfl
